import Mathlib

/-!
Verification of the HookFreight capture-and-delivery pipeline.

This file gives a shallow embedding of the core of the HookFreight webhook
relay (ingest path, delivery worker, scheduler wiring, read projections)
and proves or refutes the specified properties about it.

Conventions:
* JavaScript `Buffer`s are modelled as `List Nat` (byte lists).
* `Record<string, string | string[]>` header maps are modelled as
  association lists over `HVal` (a single value or a non-empty list of
  values; Node never produces an empty header-value array).
* Mutable state (the Mongo stores, the BullMQ queue) is passed explicitly.
* Clock reads (`Date.now()`, `new Date().toISOString()`) are parameters.
-/

/-- A header value in a Node request object: a single string or a
non-empty array of strings (repeated headers). -/
inductive HVal where
  | one (s : String)
  | more (hd : String) (tl : List String)
deriving DecidableEq, Repr

/-- Lookup in an association-list header map (`originalHeaders[key]`). -/
def hGet (m : List (String × HVal)) (k : String) : Option HVal :=
  match m.find? (fun p => p.1 == k) with
  | some p => some p.2
  | none => none

/-- JavaScript truthiness of a header value: `undefined` and the empty
string are falsy, arrays are always truthy. -/
def hvalTruthy : HVal → Bool
  | .one s => s ≠ ""
  | .more _ _ => true

/-- `Array.isArray(value) ? value[0] : value` — collapse to first value. -/
def firstVal : HVal → String
  | .one s => s
  | .more h _ => h

/-- Object property assignment `headers[k] = v` on a string-valued header
object modelled as an association list: replace in place or append. -/
def hset (m : List (String × String)) (k v : String) : List (String × String) :=
  if m.any (fun p => p.1 == k) then
    m.map (fun p => if p.1 == k then (k, v) else p)
  else
    m ++ [(k, v)]

/-- Lookup in a string-valued header object. -/
def hlookup (m : List (String × String)) (k : String) : Option String :=
  match m.find? (fun p => p.1 == k) with
  | some p => some p.2
  | none => none

/-- Endpoint `authentication` subdocument (`models/Endpoint`). -/
structure Auth where
  header_name : String
  header_value : String
deriving DecidableEq, Repr

/-- The endpoint fields read by the delivery pipeline
(`models/Endpoint.ts`). -/
structure Endpoint where
  internalId : Nat
  forwarding_enabled : Bool
  forward_url : String
  authentication : Option Auth
  http_timeout : Option Nat
deriving DecidableEq, Repr

/-- A stored event (`models/Event.ts`); `recieved_at` keeps the source's
spelling, `internalId` models the Mongo `_id` (unique, monotone). -/
structure EventDoc where
  internalId : Nat
  endpoint_id : Nat
  recieved_at : Nat
  method : String
  headers : List (String × HVal)
  body : List Nat
  size_bytes : Nat
deriving DecidableEq, Repr

/-- Delivery status enum (`models/Delivery.ts`). -/
inductive DStatus where
  | delivered
  | failed
  | timeout
deriving DecidableEq, Repr

/-- The outcome of the outbound `undici.request` call, supplied as an
environment parameter: either a response (any status code; the call is made
with `throwOnError: false`) or a thrown error with its message. -/
inductive HttpOutcome where
  | response (statusCode : Nat) (headers : List (String × String)) (body : List Nat)
  | err (msg : String)
deriving DecidableEq, Repr

/-- `DeliveryResult` (`services/deliveries.service.ts`). -/
structure DeliveryResult where
  success : Bool
  status : DStatus
  responseStatus : Option Nat
  responseHeaders : Option (List (String × String))
  responseBody : Option (List Nat)
  duration : Nat
  errorMessage : Option String
deriving DecidableEq, Repr

/-- The outbound HTTP request the worker dispatches (arguments of the
`request(endpoint.forward_url, {...})` call). -/
structure OutboundRequest where
  url : String
  method : String
  headers : List (String × String)
  body : List Nat
  bodyTimeout : Nat
  headersTimeout : Nat
deriving DecidableEq, Repr

/-- `DEFAULT_HTTP_TIMEOUT_MS` (`services/deliveries.service.ts`). -/
def DEFAULT_HTTP_TIMEOUT_MS : Nat := 10000

/-- The header allow-list `safeHeadersToForward`
(`services/deliveries.service.ts`, `buildForwardHeaders`). -/
def safeHeadersToForward : List String :=
  ["content-type", "content-encoding", "accept", "user-agent"]

/-- `buildForwardHeaders` (`services/deliveries.service.ts` lines 56-79):
copy the allow-listed original headers (first value of arrays, skipping
falsy values), add the two forwarding markers, then apply the endpoint's
authentication header last. `now` models `new Date().toISOString()`. -/
def buildForwardHeaders (originalHeaders : List (String × HVal))
    (endpoint : Endpoint) (now : String) : List (String × String) :=
  let headers : List (String × String) := []
  let headers := safeHeadersToForward.foldl
    (fun hs key =>
      match hGet originalHeaders key with
      | some v => if hvalTruthy v then hset hs key (firstVal v) else hs
      | none => hs)
    headers
  let headers := hset headers "x-hookfreight-forwarded" "true"
  let headers := hset headers "x-hookfreight-timestamp" now
  match endpoint.authentication with
  | some a =>
      if a.header_name ≠ "" ∧ a.header_value ≠ "" then
        hset headers a.header_name a.header_value
      else headers
  | none => headers

/-- Substring test used to model JavaScript `String.prototype.includes`. -/
def strContains (hay needle : String) : Bool :=
  (hay.splitOn needle).length ≥ 2

/-- `attemptDelivery` (`services/deliveries.service.ts` lines 81-167).
`ev?`/`ep?` are the results of the two `findById` lookups, `outcome` is
the result of the outbound call, `dur` models the `Date.now()` difference.
Returns the outbound request actually dispatched (`none` when control
never reaches the `request` call) together with the `DeliveryResult`. -/
def attemptDelivery (ev? : Option EventDoc) (ep? : Option Endpoint)
    (outcome : HttpOutcome) (now : String) (dur : Nat) :
    Option OutboundRequest × DeliveryResult :=
  match ev? with
  | none =>
      (none, ⟨false, .failed, none, none, none, dur, some "Event not found"⟩)
  | some event =>
    match ep? with
    | none =>
        (none, ⟨false, .failed, none, none, none, dur, some "Endpoint not found"⟩)
    | some endpoint =>
      if !endpoint.forwarding_enabled || endpoint.forward_url == "" then
        (none, ⟨false, .failed, none, none, none, dur,
          some "Forwarding not enabled or URL not configured"⟩)
      else
        let headers := buildForwardHeaders event.headers endpoint now
        let timeoutMs := endpoint.http_timeout.getD DEFAULT_HTTP_TIMEOUT_MS
        let req : OutboundRequest :=
          ⟨endpoint.forward_url, event.method, headers, event.body, timeoutMs, timeoutMs⟩
        match outcome with
        | .response code rhdrs rbody =>
            let isSuccess := 200 ≤ code && code < 300
            (some req,
              ⟨isSuccess,
               if isSuccess then .delivered else .failed,
               some code, some rhdrs, some rbody, dur,
               if isSuccess then none else some ("Received status " ++ toString code)⟩)
        | .err msg =>
            let isTimeout :=
              strContains msg "timeout" || strContains msg "ETIMEDOUT" ||
              strContains msg "UND_ERR_HEADERS_TIMEOUT" ||
              strContains msg "UND_ERR_BODY_TIMEOUT"
            (some req,
              ⟨false, if isTimeout then .timeout else .failed,
               none, none, none, dur, some msg⟩)

/-- The environment configuration defaults (`config/index.ts`): the value
of `envSchema.parse` on an empty environment. -/
structure Config where
  HOOKFREIGHT_PORT : Nat
  HOOKFREIGHT_BASE_URL : String
  HOOKFREIGHT_MAX_BODY_BYTES : Nat
  HOOKFREIGHT_QUEUE_CONCURRENCY : Nat
  HOOKFREIGHT_QUEUE_MAX_RETRIES : Nat
deriving DecidableEq, Repr

/-- Default configuration (`config/index.ts`, the `.default(...)` values). -/
def defaultConfig : Config :=
  { HOOKFREIGHT_PORT := 3030
    HOOKFREIGHT_BASE_URL := "http://localhost:3030"
    HOOKFREIGHT_MAX_BODY_BYTES := 1048576
    HOOKFREIGHT_QUEUE_CONCURRENCY := 5
    HOOKFREIGHT_QUEUE_MAX_RETRIES := 5 }

/-- A delivery job payload (`DeliveryJobData`,
`services/deliveries.service.ts`). -/
structure DeliveryJobData where
  eventId : String
  endpointId : String
  parentDeliveryId : Option String
deriving DecidableEq, Repr

/-- The BullMQ queue contents: jobs keyed by job id. -/
abbrev QueueState := List (String × DeliveryJobData)

/-- Modelled from the spec: BullMQ `queue.add(name, data, { jobId })` with
an explicit job id is idempotent — adding a job whose id already exists is
a no-op, which is what makes `delivery-{event_id}` an idempotency key. -/
def addJob (q : QueueState) (jobId : String) (data : DeliveryJobData) : QueueState :=
  if q.any (fun p => p.1 == jobId) then q else q ++ [(jobId, data)]

/-- `deliveriesService.handleEvent` (`services/deliveries.service.ts`
lines 295-331): load the endpoint by the event's `endpoint_id`; return
without enqueueing when it is missing, when `forwarding_enabled` is false,
or when `forward_url` is empty; otherwise add a job with id
`delivery-{event_id}`. `ep?` is the result of the endpoint lookup;
`eventId`/`endpointId` are the stringified object ids. -/
def handleEvent (ep? : Option Endpoint) (eventId endpointId : String)
    (q : QueueState) : QueueState :=
  match ep? with
  | none => q
  | some endpoint =>
    if !endpoint.forwarding_enabled then q
    else if endpoint.forward_url == "" then q
    else
      addJob q ("delivery-" ++ eventId) ⟨eventId, endpointId, none⟩

/-- A row of the delivery ledger as written by the worker
(`recordDelivery`): the fields the verified claims speak about, plus the
chain link. `recId` is the stringified new `_id`. -/
structure DeliveryRec where
  recId : String
  eventId : String
  status : DStatus
  responseStatus : Option Nat
  errorMessage : Option String
  parent_delivery_id : Option String
deriving DecidableEq, Repr

/-- Id given to the delivery written by attempt number `n` of the job for
event `eid` (models the fresh Mongo `_id`). -/
def recIdFor (eid : String) (n : Nat) : String :=
  eid ++ ":" ++ toString n

/-- Modelled from the spec: the BullMQ retry loop driving one job
(`getDeliveryWorker` processing function, `services/deliveries.service.ts`
lines 220-253, under the queue options of `getDeliveryQueue` lines
195-218). Each attempt runs `attemptDelivery`, records a delivery with the
job's current `parentDeliveryId`, and on failure updates the payload's
`parentDeliveryId` to the new delivery id and throws; BullMQ then retries
while `attemptsMade < attempts`, scheduling the retry after the built-in
exponential backoff `delay * 2 ^ (attemptsMade - 1)` with `delay = 1000`.
`attempts` is the queue's `attempts` option
(`config.HOOKFREIGHT_QUEUE_MAX_RETRIES`); `outcomes n` is the HTTP outcome
of the attempt with `attemptsMade = n`; `fuel` bounds the recursion and is
instantiated with `attempts`. Returns the deliveries recorded (in order)
and the backoff delays scheduled (in order). -/
def runChainAux (eid : String) (ev? : Option EventDoc) (ep? : Option Endpoint)
    (outcomes : Nat → HttpOutcome) (now : String) (dur : Nat)
    (attempts : Nat) (attemptsMade : Nat) (parent : Option String) :
    Nat → List DeliveryRec × List Nat
  | 0 => ([], [])
  | fuel + 1 =>
    let result := (attemptDelivery ev? ep? (outcomes attemptsMade) now dur).2
    let recd : DeliveryRec :=
      ⟨recIdFor eid attemptsMade, eid, result.status, result.responseStatus,
        result.errorMessage, parent⟩
    if result.success then ([recd], [])
    else
      let made := attemptsMade + 1
      if made < attempts then
        let rest := runChainAux eid ev? ep? outcomes now dur attempts made
          (some recd.recId) fuel
        (recd :: rest.1, (1000 * 2 ^ (made - 1)) :: rest.2)
      else ([recd], [])

/-- The full automatic retry chain of one freshly added job. -/
def runChain (eid : String) (ev? : Option EventDoc) (ep? : Option Endpoint)
    (outcomes : Nat → HttpOutcome) (now : String) (dur : Nat)
    (attempts : Nat) : List DeliveryRec × List Nat :=
  runChainAux eid ev? ep? outcomes now dur attempts 0 none attempts

/-- Deliveries produced by draining a queue: every job in the queue is
processed to completion by `runChain`; the store/HTTP environment of the
job for event id `e` is given by the oracle functions. -/
def runQueue (q : QueueState) (evOf : String → Option EventDoc)
    (epOf : String → Option Endpoint) (outcomesOf : String → Nat → HttpOutcome)
    (now : String) (dur : Nat) (attempts : Nat) : List DeliveryRec :=
  (q.map (fun p =>
    (runChain p.2.eventId (evOf p.2.eventId) (epOf p.2.endpointId)
      (outcomesOf p.1) now dur attempts).1)).flatten

/-- UTF-8 encoding of one Unicode scalar value (standard layout). -/
def utf8EncodeChar (c : Nat) : List Nat :=
  if c < 0x80 then [c]
  else if c < 0x800 then [0xC0 + c / 64, 0x80 + c % 64]
  else if c < 0x10000 then
    [0xE0 + c / 4096, 0x80 + (c / 64) % 64, 0x80 + c % 64]
  else
    [0xF0 + c / 262144, 0x80 + (c / 4096) % 64, 0x80 + (c / 64) % 64, 0x80 + c % 64]

/-- Modelled from the spec: `Buffer.from(s, "utf8")` — UTF-8 encode a
string to bytes. -/
def utf8Encode (s : String) : List Nat :=
  (s.toList.map (fun c => utf8EncodeChar c.toNat)).flatten

/-- Is `b` a UTF-8 continuation byte (`10xxxxxx`)? -/
def isCont (b : Nat) : Bool := 0x80 ≤ b && b ≤ 0xBF

/-- The Unicode replacement character U+FFFD. -/
def replChar : Char := Char.ofNat 0xFFFD

/-- Modelled from the spec: WHATWG UTF-8 decoding with replacement, the
behavior of Node's `buffer.toString("utf8")`: well-formed sequences decode
to their scalar value, each maximal invalid subpart becomes one U+FFFD.
`fuel` bounds recursion and is instantiated with the byte count. -/
def utf8DecodeLossyAux : Nat → List Nat → List Char
  | 0, _ => []
  | _, [] => []
  | fuel + 1, b :: rest =>
    if b < 0x80 then Char.ofNat b :: utf8DecodeLossyAux fuel rest
    else if 0xC2 ≤ b && b ≤ 0xDF then
      match rest with
      | b2 :: rest2 =>
        if isCont b2 then
          Char.ofNat ((b - 0xC0) * 64 + (b2 - 0x80)) :: utf8DecodeLossyAux fuel rest2
        else replChar :: utf8DecodeLossyAux fuel rest
      | [] => [replChar]
    else if 0xE0 ≤ b && b ≤ 0xEF then
      let lo2 := if b == 0xE0 then 0xA0 else 0x80
      let hi2 := if b == 0xED then 0x9F else 0xBF
      match rest with
      | b2 :: rest2 =>
        if lo2 ≤ b2 && b2 ≤ hi2 then
          match rest2 with
          | b3 :: rest3 =>
            if isCont b3 then
              Char.ofNat ((b - 0xE0) * 4096 + (b2 - 0x80) * 64 + (b3 - 0x80)) ::
                utf8DecodeLossyAux fuel rest3
            else replChar :: utf8DecodeLossyAux fuel rest2
          | [] => [replChar]
        else replChar :: utf8DecodeLossyAux fuel rest
      | [] => [replChar]
    else if 0xF0 ≤ b && b ≤ 0xF4 then
      let lo2 := if b == 0xF0 then 0x90 else 0x80
      let hi2 := if b == 0xF4 then 0x8F else 0xBF
      match rest with
      | b2 :: rest2 =>
        if lo2 ≤ b2 && b2 ≤ hi2 then
          match rest2 with
          | b3 :: rest3 =>
            if isCont b3 then
              match rest3 with
              | b4 :: rest4 =>
                if isCont b4 then
                  Char.ofNat ((b - 0xF0) * 262144 + (b2 - 0x80) * 4096 +
                      (b3 - 0x80) * 64 + (b4 - 0x80)) ::
                    utf8DecodeLossyAux fuel rest4
                else replChar :: utf8DecodeLossyAux fuel rest3
              | [] => [replChar]
            else replChar :: utf8DecodeLossyAux fuel rest2
          | [] => [replChar]
        else replChar :: utf8DecodeLossyAux fuel rest
      | [] => [replChar]
    else replChar :: utf8DecodeLossyAux fuel rest

/-- Lossy UTF-8 decoding to a string (`buffer.toString("utf8")`). -/
def utf8DecodeLossy (bs : List Nat) : String :=
  String.mk (utf8DecodeLossyAux bs.length bs)

/-- Modelled from the spec: strict UTF-8 validity of a byte sequence
("valid UTF-8" in the spec's projection rule). -/
def validUtf8Aux : Nat → List Nat → Bool
  | 0, l => l.isEmpty
  | _, [] => true
  | fuel + 1, b :: rest =>
    if b < 0x80 then validUtf8Aux fuel rest
    else if 0xC2 ≤ b && b ≤ 0xDF then
      match rest with
      | b2 :: rest2 => isCont b2 && validUtf8Aux fuel rest2
      | [] => false
    else if 0xE0 ≤ b && b ≤ 0xEF then
      let lo2 := if b == 0xE0 then 0xA0 else 0x80
      let hi2 := if b == 0xED then 0x9F else 0xBF
      match rest with
      | b2 :: b3 :: rest3 =>
        lo2 ≤ b2 && b2 ≤ hi2 && isCont b3 && validUtf8Aux fuel rest3
      | _ => false
    else if 0xF0 ≤ b && b ≤ 0xF4 then
      let lo2 := if b == 0xF0 then 0x90 else 0x80
      let hi2 := if b == 0xF4 then 0x8F else 0xBF
      match rest with
      | b2 :: b3 :: b4 :: rest4 =>
        lo2 ≤ b2 && b2 ≤ hi2 && isCont b3 && isCont b4 && validUtf8Aux fuel rest4
      | _ => false
    else false

/-- Strict UTF-8 validity of a byte list. -/
def validUtf8 (bs : List Nat) : Bool := validUtf8Aux bs.length bs

/-- A JSON value as produced by `JSON.parse`. Numbers keep their source
literal (the claims under verification never compare numeric values). -/
inductive JVal where
  | jnull
  | jbool (b : Bool)
  | jnum (lit : String)
  | jstr (s : String)
  | jarr (elems : List JVal)
  | jobj (fields : List (String × JVal))
deriving BEq

/-- JSON whitespace. -/
def isJsonWs (c : Char) : Bool := c == ' ' || c == '\t' || c == '\n' || c == '\r'

/-- Skip leading JSON whitespace. -/
def skipWs : List Char → List Char
  | [] => []
  | c :: cs => if isJsonWs c then skipWs cs else c :: cs

/-- Hex digit value of a character, if any. -/
def hexVal (c : Char) : Option Nat :=
  if '0' ≤ c ∧ c ≤ '9' then some (c.toNat - '0'.toNat)
  else if 'a' ≤ c ∧ c ≤ 'f' then some (c.toNat - 'a'.toNat + 10)
  else if 'A' ≤ c ∧ c ≤ 'F' then some (c.toNat - 'A'.toNat + 10)
  else none

/-- Decimal digit test. -/
def isDigitCh (c : Char) : Bool := '0' ≤ c && c ≤ '9'

/-- Parse the remainder of a JSON string literal (after the opening
quote): returns the decoded characters and the rest of the input. -/
def pStrRest : Nat → List Char → Option (List Char × List Char)
  | 0, _ => none
  | _ + 1, [] => none
  | fuel + 1, c :: cs =>
    if c == '"' then some ([], cs)
    else if c == '\\' then
      match cs with
      | [] => none
      | e :: cs2 =>
        let esc? : Option (Char × List Char) :=
          if e == '"' then some ('"', cs2)
          else if e == '\\' then some ('\\', cs2)
          else if e == '/' then some ('/', cs2)
          else if e == 'b' then some (Char.ofNat 8, cs2)
          else if e == 'f' then some (Char.ofNat 12, cs2)
          else if e == 'n' then some ('\n', cs2)
          else if e == 'r' then some (Char.ofNat 13, cs2)
          else if e == 't' then some ('\t', cs2)
          else if e == 'u' then
            match cs2 with
            | h1 :: h2 :: h3 :: h4 :: cs3 =>
              match hexVal h1, hexVal h2, hexVal h3, hexVal h4 with
              | some a, some b, some c1, some d =>
                  some (Char.ofNat (((a * 16 + b) * 16 + c1) * 16 + d), cs3)
              | _, _, _, _ => none
            | _ => none
          else none
        match esc? with
        | some (ch, rest) =>
          match pStrRest fuel rest with
          | some (l, r2) => some (ch :: l, r2)
          | none => none
        | none => none
    else if c.toNat < 0x20 then none
    else
      match pStrRest fuel cs with
      | some (l, r2) => some (c :: l, r2)
      | none => none

/-- Split a leading run of decimal digits. -/
def spanDigits : List Char → List Char × List Char
  | [] => ([], [])
  | c :: cs =>
    if isDigitCh c then
      let r := spanDigits cs
      (c :: r.1, r.2)
    else ([], c :: cs)

/-- Parse a JSON number literal at the head of the input; returns the
literal characters and the rest. -/
def pNum (cs : List Char) : Option (List Char × List Char) :=
  let (sign, cs1) :=
    match cs with
    | '-' :: t => (['-'], t)
    | _ => (([] : List Char), cs)
  match cs1 with
  | '0' :: t =>
    let intPart := ['0']
    pNumFrac sign intPart t
  | c :: _ =>
    if isDigitCh c then
      let (ds, t) := spanDigits cs1
      pNumFrac sign ds t
    else none
  | [] => none
where
  /-- Parse the optional fraction and exponent after the integer part. -/
  pNumFrac (sign intPart : List Char) (cs : List Char) : Option (List Char × List Char) :=
    let (frac, cs2) :=
      match cs with
      | '.' :: t =>
        match spanDigits t with
        | ([], _) => (none, cs)
        | (ds, t2) => (some ('.' :: ds), t2)
      | _ => (none, cs)
    match frac, cs with
    | none, '.' :: _ => none
    | _, _ =>
      let fracL := frac.getD []
      let (expo, cs3) :=
        match cs2 with
        | e :: t =>
          if e == 'e' || e == 'E' then
            let (es, t2) :=
              match t with
              | '+' :: t2 => (['+'], t2)
              | '-' :: t2 => (['-'], t2)
              | _ => (([] : List Char), t)
            match spanDigits t2 with
            | ([], _) => (none, cs2)
            | (ds, t3) => (some (e :: (es ++ ds)), t3)
          else (none, cs2)
        | [] => (none, cs2)
      match expo, cs2 with
      | none, e :: _ =>
        if e == 'e' || e == 'E' then none
        else some (sign ++ intPart ++ fracL, cs2)
      | _, _ => some (sign ++ intPart ++ fracL ++ expo.getD [], cs3)

mutual

/-- Modelled from the spec: `JSON.parse` — parse one JSON value at the
head of the input (leading whitespace allowed). -/
def pVal : Nat → List Char → Option (JVal × List Char)
  | 0, _ => none
  | fuel + 1, cs =>
    match skipWs cs with
    | [] => none
    | c :: rest =>
      if c == '"' then
        match pStrRest (rest.length + 1) rest with
        | some (l, r) => some (.jstr (String.mk l), r)
        | none => none
      else if c == '[' then pArrItems fuel (skipWs rest) true []
      else if c == '{' then pObjItems fuel (skipWs rest) true []
      else if c == 't' then
        match rest with
        | 'r' :: 'u' :: 'e' :: r => some (.jbool true, r)
        | _ => none
      else if c == 'f' then
        match rest with
        | 'a' :: 'l' :: 's' :: 'e' :: r => some (.jbool false, r)
        | _ => none
      else if c == 'n' then
        match rest with
        | 'u' :: 'l' :: 'l' :: r => some (.jnull, r)
        | _ => none
      else
        match pNum (c :: rest) with
        | some (lit, r) => some (.jnum (String.mk lit), r)
        | none => none

/-- Parse array elements after `[` (or after a comma). `first` marks that
no element has been read yet, so `]` may close immediately. -/
def pArrItems : Nat → List Char → Bool → List JVal → Option (JVal × List Char)
  | 0, _, _, _ => none
  | _ + 1, [], _, _ => none
  | fuel + 1, c :: rest, first, acc =>
    if first && c == ']' then some (.jarr acc.reverse, rest)
    else
      match pVal fuel (c :: rest) with
      | some (v, r) =>
        match skipWs r with
        | ',' :: r2 => pArrItems fuel (skipWs r2) false (v :: acc)
        | ']' :: r2 => some (.jarr (v :: acc).reverse, r2)
        | _ => none
      | none => none

/-- Parse object members after `{` (or after a comma). -/
def pObjItems : Nat → List Char → Bool → List (String × JVal) →
    Option (JVal × List Char)
  | 0, _, _, _ => none
  | _ + 1, [], _, _ => none
  | fuel + 1, c :: rest, first, acc =>
    if first && c == '}' then some (.jobj acc.reverse, rest)
    else if c == '"' then
      match pStrRest (rest.length + 1) rest with
      | some (kl, r) =>
        match skipWs r with
        | ':' :: r2 =>
          match pVal fuel (skipWs r2) with
          | some (v, r3) =>
            match skipWs r3 with
            | ',' :: r4 => pObjItems fuel (skipWs r4) false ((String.mk kl, v) :: acc)
            | '}' :: r4 => some (.jobj ((String.mk kl, v) :: acc).reverse, r4)
            | _ => none
          | none => none
        | _ => none
      | none => none
    else none

end

/-- Modelled from the spec: JavaScript `JSON.parse(str)`, returning `none`
where it would throw. -/
def jsonParse (s : String) : Option JVal :=
  match pVal (2 * s.length + 4) s.toList with
  | some (v, rest) =>
    match skipWs rest with
    | [] => some v
    | _ => none
  | none => none

/-- JSON string-literal escaping of one character (as `JSON.stringify`
escapes strings). -/
def escChar (c : Char) : List Char :=
  if c == '"' then ['\\', '"']
  else if c == '\\' then ['\\', '\\']
  else if c == '\n' then ['\\', 'n']
  else if c.toNat == 13 then ['\\', 'r']
  else if c == '\t' then ['\\', 't']
  else if c.toNat == 8 then ['\\', 'b']
  else if c.toNat == 12 then ['\\', 'f']
  else if c.toNat < 0x20 then
    ['\\', 'u', '0', '0',
      (if c.toNat / 16 < 10 then Char.ofNat ('0'.toNat + c.toNat / 16)
       else Char.ofNat ('a'.toNat + c.toNat / 16 - 10)),
      (if c.toNat % 16 < 10 then Char.ofNat ('0'.toNat + c.toNat % 16)
       else Char.ofNat ('a'.toNat + c.toNat % 16 - 10))]
  else [c]

/-- Modelled from the spec: JavaScript `JSON.stringify` (used by the
ingest path only as the last-resort body fallback). -/
def jsonStringify : JVal → String
  | .jnull => "null"
  | .jbool true => "true"
  | .jbool false => "false"
  | .jnum lit => lit
  | .jstr s => String.mk ('"' :: (s.toList.map escChar).flatten ++ ['"'])
  | .jarr es =>
      "[" ++ String.intercalate "," (es.attach.map (fun x => jsonStringify x.1)) ++ "]"
  | .jobj fs =>
      "\x7b" ++ String.intercalate ","
        (fs.attach.map (fun x =>
          String.mk ('"' :: (x.1.1.toList.map escChar).flatten ++ ['"']) ++ ":" ++
            jsonStringify x.1.2))
        ++ "\x7d"
decreasing_by
  · have h := List.sizeOf_lt_of_mem x.2
    simp only [JVal.jarr.sizeOf_spec]
    omega
  · have h := List.sizeOf_lt_of_mem x.2
    have h2 : sizeOf x.1.2 < sizeOf x.1 := by
      obtain ⟨⟨a, b⟩, hx⟩ := x
      simp only [Prod.mk.sizeOf_spec]
      omega
    simp only [JVal.jobj.sizeOf_spec]
    omega

/-- `toBuffer` (`utils/http.ts`) restricted to the values that occur in
this model: a stored `Buffer` (byte list) or `undefined`; the source's
remaining branches convert Mongoose runtime wrappers of the same bytes and
its fallback returns the empty buffer, which is the `none` case here. -/
def toBuffer : Option (List Nat) → List Nat
  | some b => b
  | none => []

/-- The projection of a body for API consumption. -/
inductive ProjBody where
  | nullB
  | jsonB (v : JVal)
  | strB (s : String)
deriving BEq

/-- `parseBufferBody` (`utils/http.ts` lines 157-168): empty buffer maps
to `null`; otherwise decode as UTF-8 (`buffer.toString("utf8")`, lossy)
and try `JSON.parse`, falling back to the decoded string. -/
def parseBufferBody (value : Option (List Nat)) : ProjBody :=
  let buffer := toBuffer value
  if buffer.length == 0 then .nullB
  else
    let str := utf8DecodeLossy buffer
    match jsonParse str with
    | some v => .jsonB v
    | none => .strB str

/-- Modelled from the spec: the projection rule exactly as the claim
words it — "parsed JSON value when the bytes are valid UTF-8 that parses
as JSON, otherwise the UTF-8 string, and null when the body is empty". -/
def claimedBodyProjection (value : Option (List Nat)) : ProjBody :=
  let buffer := toBuffer value
  if buffer.length == 0 then .nullB
  else if validUtf8 buffer then
    let str := utf8DecodeLossy buffer
    match jsonParse str with
    | some v => .jsonB v
    | none => .strB str
  else .strB (utf8DecodeLossy buffer)

/-- The amended projection rule: decode the bytes as UTF-8 with
replacement; if the decoded string parses as JSON return the parsed value,
otherwise the decoded string; empty body maps to null. -/
def amendedBodyProjection (value : Option (List Nat)) : ProjBody :=
  let buffer := toBuffer value
  if buffer.length == 0 then .nullB
  else
    let str := utf8DecodeLossy buffer
    match jsonParse str with
    | some v => .jsonB v
    | none => .strB str

/-- A stored delivery document as read back by the listing query
(`models/Delivery.ts`); `internalId` models the Mongo `_id` and
`createdAt` the timestamp written by `{ timestamps: true }`. -/
structure DeliveryDoc where
  internalId : Nat
  event_id : String
  status : DStatus
  response_status : Option Nat
  response_body : Option (List Nat)
  createdAt : Nat
deriving DecidableEq, Repr

/-- A delivery after the read projection of `getDeliveriesByEventId`. -/
structure ProjectedDelivery where
  internalId : Nat
  event_id : String
  status : DStatus
  response_status : Option Nat
  response_body : ProjBody
  createdAt : Nat

/-- Sort order of the deliveries query `.sort({ createdAt: -1 })`:
`a` comes before `b` when its `createdAt` is not smaller. -/
def dBefore (a b : DeliveryDoc) : Prop := b.createdAt ≤ a.createdAt

instance : DecidableRel dBefore := fun a b => Nat.decLe _ _

instance : IsTotal DeliveryDoc dBefore :=
  ⟨fun a b => Nat.le_total b.createdAt a.createdAt⟩

instance : IsTrans DeliveryDoc dBefore :=
  ⟨fun _ _ _ h1 h2 => Nat.le_trans h2 h1⟩

/-- `MAX_LIST_LIMIT` of the deliveries service. -/
def DELIVERIES_MAX_LIST_LIMIT : Int := 1000

/-- The result shape of `deliveriesService.getDeliveriesByEventId`. -/
structure DeliveriesPage where
  deliveries : List ProjectedDelivery
  has_next : Bool
  limit : Int
  offset : Int

/-- `deliveriesService.getDeliveriesByEventId`
(`services/deliveries.service.ts` lines 362-380): clamp `limit` to
`[1, 1000]` (zod default 20) and `offset` to `≥ 0` (default 0), query the
deliveries of the event sorted by `createdAt` descending, skip `offset`,
fetch `limit + 1`, report `has_next` when more than `limit` came back, and
project each kept document's `response_body` through `parseBufferBody`.
`docs` is the delivery collection; `limit?`/`offset?` are the
(zod-coerced) query parameters, `none` when absent. -/
def getDeliveriesByEventId (docs : List DeliveryDoc) (eventId : String)
    (limit? offset? : Option Int) : DeliveriesPage :=
  let limit : Int := max 1 (min DELIVERIES_MAX_LIST_LIMIT (limit?.getD 20))
  let offset : Int := max 0 (offset?.getD 0)
  let sorted := List.insertionSort dBefore (docs.filter (fun d => d.event_id == eventId))
  let fetched := (sorted.drop offset.toNat).take (limit.toNat + 1)
  let has_next := decide (limit.toNat < fetched.length)
  let deliveries := (fetched.take limit.toNat).map (fun d =>
    ⟨d.internalId, d.event_id, d.status, d.response_status,
      parseBufferBody d.response_body, d.createdAt⟩)
  ⟨deliveries, has_next, limit, offset⟩

/-- Sort order of the events query `.sort({ recieved_at: -1, _id: -1 })`:
`a` comes before `b` when `(recieved_at, _id)` is lexicographically not
smaller. -/
def evBefore (a b : EventDoc) : Prop :=
  b.recieved_at < a.recieved_at ∨
    (a.recieved_at = b.recieved_at ∧ b.internalId ≤ a.internalId)

instance : DecidableRel evBefore := fun _ _ => by
  unfold evBefore
  infer_instance

instance : IsTotal EventDoc evBefore where
  total a b := by
    unfold evBefore
    omega

instance : IsTrans EventDoc evBefore where
  trans a b c h1 h2 := by
    unfold evBefore at *
    omega

/-- `MAX_LIST_LIMIT` of the events service. -/
def EVENTS_MAX_LIST_LIMIT : Int := 50

/-- The result shape of `eventsService.listEventsByEndpointId`. The
returned documents are kept in stored form: the `eventToHttpResponse`
per-item projection is order-preserving and outside the listing claims. -/
structure EventsPage where
  events : List EventDoc
  has_next : Bool
  limit : Int
  offset : Int

/-- `eventsService.listEventsByEndpointId` (events service, `listSchema`
and the query): clamp `limit` to `[1, 50]` (zod default 10) and `offset`
to `≥ 0`; if the endpoint is unknown return an empty page; otherwise take
the endpoint's events sorted by `recieved_at` descending with `_id`
descending as tie-break, skip `offset`, fetch `limit + 1`, report
`has_next` when more than `limit` came back, and return the first
`limit`. -/
def listEventsByEndpointId (events : List EventDoc) (ep? : Option Endpoint)
    (limit? offset? : Option Int) : EventsPage :=
  let limit : Int := max 1 (min EVENTS_MAX_LIST_LIMIT (limit?.getD 10))
  let offset : Int := max 0 (offset?.getD 0)
  match ep? with
  | none => ⟨[], false, limit, offset⟩
  | some endpoint =>
    let sorted := List.insertionSort evBefore
      (events.filter (fun e => e.endpoint_id == endpoint.internalId))
    let fetched := (sorted.drop offset.toNat).take (limit.toNat + 1)
    let has_next := decide (limit.toNat < fetched.length)
    ⟨fetched.take limit.toNat, has_next, limit, offset⟩

/-- JavaScript `String.prototype.toUpperCase` on ASCII strings (HTTP
method names are ASCII tokens). -/
def jsToUpper (s : String) : String := String.mk (s.toList.map Char.toUpper)

/-- `ALLOWED_METHODS` (events service). -/
def ALLOWED_METHODS : List String := ["POST", "PUT", "PATCH", "GET"]

/-- The possible values of `req.body` on the ingest request: a raw buffer,
a string, a parsed JSON value, or `undefined`. -/
inductive ReqBody where
  | buf (b : List Nat)
  | str (s : String)
  | jsonv (v : JVal)
  | undef

/-- The fields of the Express request the ingest path reads. -/
structure IngestReq where
  method : String
  hook_token : String
  rawBody : Option (List Nat)
  body : ReqBody
  headers : List (String × HVal)

/-- An `HttpError` thrown by `httpError(status, message)`
(`utils/http.ts`). -/
structure HErr where
  status : Nat
  message : String
deriving DecidableEq, Repr

/-- The `rawBody` middleware (`middleware/raw-body.ts`): `express.raw`
with `type: "*/*"` and the configured size limit rejects an over-limit
body with 413 and otherwise stores the raw received bytes both as
`req.body` and as `req.rawBody` before any parsing. `wire` is the exact
byte sequence received over the wire. -/
def applyRawBody (wire : List Nat) (maxBodyBytes : Nat) (req : IngestReq) :
    Except HErr IngestReq :=
  if maxBodyBytes < wire.length then .error ⟨413, "payload_too_large"⟩
  else .ok { req with rawBody := some wire, body := .buf wire }

/-- `eventsService.createEvent` (events service): validate the method,
look up the endpoint by hook token, pick the body buffer (preferring the
middleware's `rawBody`, then a `Buffer` body, then a string body encoded
as UTF-8, then `JSON.stringify(req.body ?? null)` encoded as UTF-8),
persist the event, then fire-and-forget `deliveriesService.handleEvent`.
`epByToken?` is the result of the `hook_token` lookup; `epById?` that of
`handleEvent`'s later `endpoint_id` lookup; `now` is the server clock and
`newId` the fresh Mongo `_id`. Returns the handler result together with
the updated event store and queue. -/
def createEvent (req : IngestReq) (epByToken? : Option Endpoint)
    (epById? : Option Endpoint) (now newId : Nat)
    (store : List EventDoc) (q : QueueState) :
    Except HErr EventDoc × List EventDoc × QueueState :=
  let method := jsToUpper req.method
  if !(ALLOWED_METHODS.contains method) then
    (.error ⟨405, "method_not_allowed"⟩, store, q)
  else
    match epByToken? with
    | none => (.error ⟨404, "endpoint_not_found"⟩, store, q)
    | some endpoint =>
      let bodyBuffer :=
        match req.rawBody with
        | some b => b
        | none =>
          match req.body with
          | .buf b => b
          | .str s => utf8Encode s
          | .jsonv v => utf8Encode (jsonStringify v)
          | .undef => utf8Encode (jsonStringify .jnull)
      let sizeBytes := bodyBuffer.length
      let event : EventDoc :=
        ⟨newId, endpoint.internalId, now, method, req.headers, bodyBuffer, sizeBytes⟩
      let q2 := handleEvent epById? (toString newId) (toString endpoint.internalId) q
      (.ok event, store ++ [event], q2)

/-- The envelope the ingest controller sends (`events.controller.ts`
`createEvent`, with the error-handler mapping for thrown `HttpError`s):
status code, `message`, and whether `data` is `null`. -/
structure ApiResponse where
  status : Nat
  message : String
  dataIsNull : Bool
deriving DecidableEq, Repr

/-- `eventsController.createEvent` response: `200 event_created` with
`data: null` on success; the thrown error's status and message otherwise. -/
def createEventResponse (r : Except HErr EventDoc) : ApiResponse :=
  match r with
  | .ok _ => ⟨200, "event_created", true⟩
  | .error e => ⟨e.status, e.message, true⟩

/-- Hexadecimal-digit test (both cases), for the hook-token path shape. -/
def isHexCh (c : Char) : Bool :=
  ('0' ≤ c && c ≤ '9') || ('a' ≤ c && c ≤ 'f') || ('A' ≤ c && c ≤ 'F')

/-- Split a character list at the first occurrence of a (non-empty)
separator, returning the parts before and after it. -/
def breakSub (sep : List Char) : List Char → Option (List Char × List Char)
  | [] => none
  | c :: cs =>
    if List.isPrefixOf sep (c :: cs) then some ([], (c :: cs).drop sep.length)
    else
      match breakSub sep cs with
      | some (pre, post) => some (c :: pre, post)
      | none => none

/-- Modelled from the spec: split `scheme://rest` of a URL. -/
def splitScheme (u : String) : Option (String × String) :=
  match breakSub [':', '/', '/'] u.toList with
  | some (sch, rest) => some (String.mk sch, String.mk rest)
  | none => none

/-- Modelled from the spec: split the part after the scheme into the
authority (`host[:port]`) and the path (which keeps its leading slash,
or is empty when absent). -/
def authorityAndPath (rest : String) : String × String :=
  let sp := rest.toList.span (fun c => !(c == '/'))
  (String.mk sp.1, String.mk sp.2)

/-- The numeric value of a non-empty list of decimal digits, `0` when the
list is empty or holds a non-digit. -/
def digitsToNat (l : List Char) : Nat :=
  if l ≠ [] ∧ l.all isDigitCh then
    l.foldl (fun acc c => acc * 10 + (c.toNat - '0'.toNat)) 0
  else 0

/-- Modelled from the spec: the `host:port` of an authority, with the
default port inferred from the scheme (443 for https, 80 otherwise). -/
def hostPort (scheme authority : String) : String × Nat :=
  match breakSub [':'] authority.toList with
  | some (h, p) => (String.mk h, digitsToNat p)
  | none => (authority, if scheme == "https" then 443 else 80)

/-- Modelled from the spec: does the path match `^/[A-Fa-f0-9]{24}$`? -/
def is24HexPath (path : String) : Bool :=
  match path.toList with
  | '/' :: rest => rest.length == 24 && rest.all isHexCh
  | _ => false

/-- Modelled from the spec: the self-forward guard condition — the
`forward_url`'s host:port (default port inferred from the scheme) equals
the configured public base URL's host:port and its path has the hook-token
shape. The source implements no such check; this definition only states
the condition the spec describes. -/
def specSelfForwardGuard (forwardUrl baseUrl : String) : Bool :=
  match splitScheme forwardUrl, splitScheme baseUrl with
  | some (s1, r1), some (s2, r2) =>
    let (a1, p1) := authorityAndPath r1
    let (a2, _) := authorityAndPath r2
    hostPort s1 a1 == hostPort s2 a2 && is24HexPath p1
  | _, _ => false

/-! ## Lemmas about header-object assignment -/

theorem fstKey_update (k v : String) (q : String × String) :
    ((if q.1 == k then (k, v) else q) : String × String).1 = q.1 := by
  by_cases h : q.1 == k
  · simp only [h, if_true]
    exact (eq_of_beq h).symm
  · simp [h]

theorem hlookup_of_any_false (m : List (String × String)) (k : String)
    (h : m.any (fun p => p.1 == k) = false) : hlookup m k = none := by
  unfold hlookup
  rw [List.find?_eq_none.2]
  intro x hx
  have := List.any_eq_false.mp h x hx
  simpa using this

theorem hlookup_hset (m : List (String × String)) (k v k2 : String) :
    hlookup (hset m k v) k2 = if k2 = k then some v else hlookup m k2 := by
  unfold hset
  by_cases hany : m.any (fun p => p.1 == k)
  · simp only [hany, if_true]
    have hcomp : ∀ q : String × String,
        ((if q.1 == k then (k, v) else q).1 == k2) = (q.1 == k2) := by
      intro q
      rw [fstKey_update]
    unfold hlookup
    rw [List.find?_map]
    have hpred : ((fun p : String × String => p.1 == k2) ∘
        (fun p : String × String => if p.1 == k then (k, v) else p)) =
        (fun p : String × String => p.1 == k2) := by
      funext q
      simpa using hcomp q
    rw [hpred]
    by_cases hk : k2 = k
    · subst hk
      obtain ⟨q, hq, hqk⟩ := List.any_eq_true.mp hany
      have hsome : (m.find? (fun p => p.1 == k2)).isSome := by
        rw [List.find?_isSome]
        exact ⟨q, hq, hqk⟩
      obtain ⟨r, hr⟩ := Option.isSome_iff_exists.mp hsome
      have hrk := List.find?_some hr
      rw [hr]
      simp only at hrk
      simp [hrk]
      rw [if_pos (eq_of_beq hrk)]
    · rw [if_neg hk]
      cases hfind : m.find? (fun p => p.1 == k2) with
      | none => simp
      | some r =>
        have hrk := List.find?_some hfind
        simp only at hrk
        have hrne : (r.1 == k) = false := by
          have : r.1 = k2 := eq_of_beq hrk
          simp [this, hk]
        have hne : ¬ r.1 = k := by simpa using hrne
        simp [hne, hk]
  · rw [Bool.not_eq_true] at hany
    rw [if_neg (by simp [hany])]
    unfold hlookup
    rw [List.find?_append]
    by_cases hk : k2 = k
    · subst hk
      have : m.find? (fun p => p.1 == k2) = none := by
        rw [List.find?_eq_none]
        intro x hx
        have := List.any_eq_false.mp hany x hx
        simpa using this
      simp [this]
    · cases hfind : m.find? (fun p => p.1 == k2) with
      | none =>
        simp only [hfind, Option.none_orElse]
        have : (k == k2) = false := by
          simp [beq_eq_false_iff_ne]
          exact fun h => hk h.symm
        simp [this, hk]
      | some r => simp [hfind, hk]

theorem hlookup_copyFold_notMem (orig : List (String × HVal)) (keys : List String)
    (hs : List (String × String)) (k : String) (hk : k ∉ keys) :
    hlookup (keys.foldl (fun hs key =>
      match hGet orig key with
      | some v => if hvalTruthy v then hset hs key (firstVal v) else hs
      | none => hs) hs) k = hlookup hs k := by
  induction keys generalizing hs with
  | nil => rfl
  | cons hd tl ih =>
    have hkhd : k ≠ hd := fun h => hk (h ▸ List.mem_cons_self hd tl)
    have hktl : k ∉ tl := fun h => hk (List.mem_cons_of_mem hd h)
    rw [List.foldl_cons, ih _ hktl]
    cases hGet orig hd with
    | none => rfl
    | some v =>
      by_cases ht : hvalTruthy v
      · simp only [ht, if_true]
        rw [hlookup_hset]
        simp [hkhd]
      · simp [ht]

theorem hlookup_copyFold_mem (orig : List (String × HVal)) (keys : List String)
    (hs : List (String × String)) (k : String) (hnd : keys.Nodup) (hk : k ∈ keys) :
    hlookup (keys.foldl (fun hs key =>
      match hGet orig key with
      | some v => if hvalTruthy v then hset hs key (firstVal v) else hs
      | none => hs) hs) k =
      (match hGet orig k with
       | some v => if hvalTruthy v then some (firstVal v) else hlookup hs k
       | none => hlookup hs k) := by
  induction keys generalizing hs with
  | nil => cases hk
  | cons hd tl ih =>
    rw [List.foldl_cons]
    rcases List.mem_cons.mp hk with hkhd | hktl
    · subst hkhd
      have hknotl : k ∉ tl := (List.nodup_cons.mp hnd).1
      rw [hlookup_copyFold_notMem orig tl _ k hknotl]
      cases hv : hGet orig k with
      | none => rfl
      | some v =>
        by_cases ht : hvalTruthy v
        · simp only [ht, if_true]
          rw [hlookup_hset]
          simp
        · simp [ht]
    · have hne : k ≠ hd := by
        intro h
        subst h
        exact (List.nodup_cons.mp hnd).1 hktl
      rw [ih _ (List.nodup_cons.mp hnd).2 hktl]
      cases hGet orig hd with
      | none => rfl
      | some v =>
        by_cases ht : hvalTruthy v
        · simp only [ht, if_true]
          rw [hlookup_hset]
          simp [hne]
        · simp [ht]

/-- The markers-and-allowlist part of the outbound header map: what a key
resolves to before the authentication override. -/
def bfhBase (orig : List (String × HVal)) (now k : String) : Option String :=
  if k = "x-hookfreight-timestamp" then some now
  else if k = "x-hookfreight-forwarded" then some "true"
  else if k ∈ safeHeadersToForward then
    match hGet orig k with
    | some v => if hvalTruthy v then some (firstVal v) else none
    | none => none
  else none

theorem hlookup_bfh_pre_auth (orig : List (String × HVal)) (now k : String) :
    hlookup
      (hset (hset (safeHeadersToForward.foldl (fun hs key =>
        match hGet orig key with
        | some v => if hvalTruthy v then hset hs key (firstVal v) else hs
        | none => hs) []) "x-hookfreight-forwarded" "true")
        "x-hookfreight-timestamp" now) k = bfhBase orig now k := by
  rw [hlookup_hset, hlookup_hset]
  unfold bfhBase
  by_cases h1 : k = "x-hookfreight-timestamp"
  · simp [h1]
  · rw [if_neg h1, if_neg h1]
    by_cases h2 : k = "x-hookfreight-forwarded"
    · simp [h2]
    · rw [if_neg h2, if_neg h2]
      by_cases h3 : k ∈ safeHeadersToForward
      · rw [if_pos h3]
        rw [hlookup_copyFold_mem orig safeHeadersToForward [] k (by decide) h3]
        cases hGet orig k with
        | none => rfl
        | some v =>
          by_cases ht : hvalTruthy v
          · simp [ht]
          · simp [ht, hlookup]
      · rw [if_neg h3]
        rw [hlookup_copyFold_notMem orig safeHeadersToForward [] k h3]
        rfl

/-- C6: for every forwarded attempt, the outbound header map resolves each
key exactly as: the endpoint's authentication header (when both of its
fields are set) wins over everything; otherwise the two forwarding markers
`x-hookfreight-forwarded: true` and `x-hookfreight-timestamp: <now>`;
otherwise an allow-listed original header (`content-type`,
`content-encoding`, `accept`, `user-agent`), collapsed to its first value;
every other key is absent. -/
theorem c6_forward_headers_characterization
    (orig : List (String × HVal)) (ep : Endpoint) (now k : String) :
    hlookup (buildForwardHeaders orig ep now) k =
      (match ep.authentication with
       | some a =>
         if a.header_name ≠ "" ∧ a.header_value ≠ "" then
           if k = a.header_name then some a.header_value
           else bfhBase orig now k
         else bfhBase orig now k
       | none => bfhBase orig now k) := by
  unfold buildForwardHeaders
  cases ep.authentication with
  | none =>
    simp only
    exact hlookup_bfh_pre_auth orig now k
  | some a =>
    simp only
    by_cases hcond : a.header_name ≠ "" ∧ a.header_value ≠ ""
    · rw [if_pos hcond, if_pos hcond, hlookup_hset]
      by_cases hka : k = a.header_name
      · simp [hka]
      · rw [if_neg hka, if_neg hka]
        exact hlookup_bfh_pre_auth orig now k
    · rw [if_neg hcond, if_neg hcond]
      exact hlookup_bfh_pre_auth orig now k

/-- C9: an ingest request whose uppercased method is not one of
GET/POST/PUT/PATCH is rejected with `405 method_not_allowed`; the event
store and the delivery queue are left untouched (no event stored, no job
enqueued), and the response envelope carries the 405 with null data. -/
theorem c9_method_filter (req : IngestReq) (epByToken? epById? : Option Endpoint)
    (now newId : Nat) (store : List EventDoc) (q : QueueState)
    (hm : jsToUpper req.method ∉ ALLOWED_METHODS) :
    createEvent req epByToken? epById? now newId store q =
      (.error ⟨405, "method_not_allowed"⟩, store, q) ∧
    createEventResponse (createEvent req epByToken? epById? now newId store q).1 =
      ⟨405, "method_not_allowed", true⟩ := by
  have hc : ALLOWED_METHODS.contains (jsToUpper req.method) = false := by
    simpa using hm
  constructor
  · simp [createEvent, hm]
  · simp [createEvent, createEventResponse, hm]

/-- C9 witness: a `DELETE` ingest is rejected with 405 and stores nothing. -/
theorem c9_method_filter_witness :
    jsToUpper "DELETE" ∉ ALLOWED_METHODS ∧
    createEvent ⟨"DELETE", "a1b2c3d4e5f6a1b2c3d4e5f6", none, .undef, []⟩
        (some ⟨7, true, "http://dest.example/h", none, none⟩) none 11 42 [] [] =
      (.error ⟨405, "method_not_allowed"⟩, [], []) := by
  refine ⟨by decide, ?_⟩
  exact (c9_method_filter ⟨"DELETE", "a1b2c3d4e5f6a1b2c3d4e5f6", none, .undef, []⟩
    (some ⟨7, true, "http://dest.example/h", none, none⟩) none 11 42 [] []
    (by decide)).1

/-- C3: when the raw-body middleware has captured the wire bytes (which it
does, before any parsing, rejecting only over-limit bodies), the event the
ingest path persists stores exactly those bytes as its body — no
content-type-driven parsing or re-serialization touches them — and its
`size_bytes` equals the byte length of the body. -/
theorem c3_body_byte_exact (wire : List Nat) (maxBodyBytes : Nat)
    (req req2 : IngestReq) (ep : Endpoint) (epById? : Option Endpoint)
    (now newId : Nat) (store : List EventDoc) (q : QueueState)
    (hrb : applyRawBody wire maxBodyBytes req = .ok req2)
    (hm : jsToUpper req.method ∈ ALLOWED_METHODS) :
    ∃ ev : EventDoc,
      createEvent req2 (some ep) epById? now newId store q =
        (.ok ev, store ++ [ev],
          handleEvent epById? (toString newId) (toString ep.internalId) q) ∧
      ev.body = wire ∧ ev.size_bytes = wire.length := by
  have hreq2 : req2 = { req with rawBody := some wire, body := .buf wire } := by
    unfold applyRawBody at hrb
    by_cases hlim : maxBodyBytes < wire.length
    · rw [if_pos hlim] at hrb
      cases hrb
    · rw [if_neg hlim] at hrb
      cases hrb
      rfl
  subst hreq2
  have hc : ALLOWED_METHODS.contains (jsToUpper req.method) = true := by
    simpa using hm
  refine ⟨⟨newId, ep.internalId, now, jsToUpper req.method, req.headers, wire, wire.length⟩,
    ?_, rfl, rfl⟩
  simp [createEvent, hm]

/-- C3 witness: a 3-byte wire body is stored byte-for-byte with
`size_bytes = 3`. -/
theorem c3_body_byte_exact_witness :
    applyRawBody [104, 105, 33] 1048576 ⟨"POST", "a1b2c3d4e5f6a1b2c3d4e5f6", none, .undef, []⟩ =
      .ok ⟨"POST", "a1b2c3d4e5f6a1b2c3d4e5f6", some [104, 105, 33], .buf [104, 105, 33], []⟩ ∧
    jsToUpper "POST" ∈ ALLOWED_METHODS ∧
    ∃ ev : EventDoc,
      createEvent ⟨"POST", "a1b2c3d4e5f6a1b2c3d4e5f6", some [104, 105, 33], .buf [104, 105, 33], []⟩
          (some ⟨7, true, "http://dest.example/h", none, none⟩) none 11 42 [] [] =
        (.ok ev, [] ++ [ev], handleEvent none (toString 42) (toString 7) []) ∧
      ev.body = [104, 105, 33] ∧ ev.size_bytes = List.length [104, 105, 33] := by
  refine ⟨rfl, by decide, ?_⟩
  exact c3_body_byte_exact [104, 105, 33] 1048576
    ⟨"POST", "a1b2c3d4e5f6a1b2c3d4e5f6", none, .undef, []⟩
    ⟨"POST", "a1b2c3d4e5f6a1b2c3d4e5f6", some [104, 105, 33], .buf [104, 105, 33], []⟩
    ⟨7, true, "http://dest.example/h", none, none⟩ none 11 42 [] [] rfl (by decide)

theorem addJob_idem (q : QueueState) (jobId : String) (d d2 : DeliveryJobData) :
    addJob (addJob q jobId d) jobId d2 = addJob q jobId d := by
  unfold addJob
  by_cases h : q.any (fun p => p.1 == jobId)
  · simp [h]
  · rw [if_neg h]
    rw [if_pos]
    rw [List.any_append]
    simp

/-- C5: enqueue-on-capture is idempotent per event. `handleEvent` only
ever adds the job with id `delivery-{event_id}` (or adds nothing), running
it twice leaves the queue exactly as running it once, and starting from a
queue with no job under that id it ends with at most one such job — a
single retry chain per event. -/
theorem c5_enqueue_idempotent (ep? : Option Endpoint) (eventId endpointId : String)
    (q : QueueState)
    (hfresh : q.countP (fun p => p.1 == "delivery-" ++ eventId) = 0) :
    handleEvent ep? eventId endpointId (handleEvent ep? eventId endpointId q) =
      handleEvent ep? eventId endpointId q ∧
    (handleEvent ep? eventId endpointId q = q ∨
      handleEvent ep? eventId endpointId q =
        addJob q ("delivery-" ++ eventId) ⟨eventId, endpointId, none⟩) ∧
    (handleEvent ep? eventId endpointId q).countP
      (fun p => p.1 == "delivery-" ++ eventId) ≤ 1 := by
  have hstep : handleEvent ep? eventId endpointId q = q ∨
      handleEvent ep? eventId endpointId q =
        addJob q ("delivery-" ++ eventId) ⟨eventId, endpointId, none⟩ := by
    unfold handleEvent
    cases ep? with
    | none => exact Or.inl rfl
    | some ep =>
      by_cases h1 : ep.forwarding_enabled
      · by_cases h2 : ep.forward_url == ""
        · simp [h1, h2]
        · simp [h1, h2]
      · simp [h1]
  refine ⟨?_, hstep, ?_⟩
  · rcases hstep with h | h
    · rw [h, h]
    · rw [h]
      unfold handleEvent
      cases ep? with
      | none => rfl
      | some ep =>
        by_cases h1 : ep.forwarding_enabled
        · by_cases h2 : ep.forward_url == ""
          · simp [h1, h2]
          · simp only [h1, h2, Bool.not_true, if_false]
            simp only [Bool.false_eq_true, if_false]
            exact addJob_idem q _ _ _
        · simp [h1]
  · rcases hstep with h | h
    · rw [h, hfresh]
      omega
    · rw [h]
      unfold addJob
      by_cases hany : q.any (fun p => p.1 == "delivery-" ++ eventId)
      · rw [if_pos hany, hfresh]
        omega
      · rw [if_neg hany, List.countP_append, hfresh]
        simp

/-- C5 witness: on an empty queue, enqueueing the same captured event
twice yields the single job `delivery-ev1`. -/
theorem c5_enqueue_idempotent_witness :
    ([] : QueueState).countP (fun p => p.1 == "delivery-" ++ "ev1") = 0 ∧
    (handleEvent (some ⟨7, true, "http://dest.example/h", none, none⟩) "ev1" "7"
        (handleEvent (some ⟨7, true, "http://dest.example/h", none, none⟩) "ev1" "7" []) =
      handleEvent (some ⟨7, true, "http://dest.example/h", none, none⟩) "ev1" "7" [] ∧
    (handleEvent (some ⟨7, true, "http://dest.example/h", none, none⟩) "ev1" "7" [] = [] ∨
      handleEvent (some ⟨7, true, "http://dest.example/h", none, none⟩) "ev1" "7" [] =
        addJob [] ("delivery-" ++ "ev1") ⟨"ev1", "7", none⟩) ∧
    (handleEvent (some ⟨7, true, "http://dest.example/h", none, none⟩) "ev1" "7" []).countP
      (fun p => p.1 == "delivery-" ++ "ev1") ≤ 1) :=
  ⟨rfl, c5_enqueue_idempotent (some ⟨7, true, "http://dest.example/h", none, none⟩)
    "ev1" "7" [] rfl⟩

/-- C2 counterexample: for an endpoint whose `forward_url` is the
configured base URL followed by a 24-hex hook-token path — exactly the
condition of the claimed self-forward guard — the worker still dispatches
the outbound HTTP request, and the recorded delivery carries the
destination's outcome (here `delivered`), not a `failed` record with
the message "forward URL points to a HookFreight webhook URL". -/
theorem c2_counterexample :
    specSelfForwardGuard "http://localhost:3030/deadbeefdeadbeefdeadbeef"
      defaultConfig.HOOKFREIGHT_BASE_URL = true ∧
    (attemptDelivery (some ⟨1, 2, 0, "POST", [], [], 0⟩)
      (some ⟨2, true, "http://localhost:3030/deadbeefdeadbeefdeadbeef", none, none⟩)
      (.response 200 [] []) "ts" 0).1.isSome = true ∧
    (attemptDelivery (some ⟨1, 2, 0, "POST", [], [], 0⟩)
      (some ⟨2, true, "http://localhost:3030/deadbeefdeadbeefdeadbeef", none, none⟩)
      (.response 200 [] []) "ts" 0).2.status = .delivered ∧
    (attemptDelivery (some ⟨1, 2, 0, "POST", [], [], 0⟩)
      (some ⟨2, true, "http://localhost:3030/deadbeefdeadbeefdeadbeef", none, none⟩)
      (.response 200 [] []) "ts" 0).2.errorMessage ≠
      some "forward URL points to a HookFreight webhook URL" := by
  refine ⟨by decide, rfl, rfl, ?_⟩
  intro h
  rw [show (attemptDelivery (some ⟨1, 2, 0, "POST", [], [], 0⟩)
      (some ⟨2, true, "http://localhost:3030/deadbeefdeadbeefdeadbeef", none, none⟩)
      (.response 200 [] []) "ts" 0).2.errorMessage = none from rfl] at h
  cases h

/-- C2 amended: the worker implements no self-forward check. Whenever the
event and endpoint are found, forwarding is enabled and `forward_url` is
non-empty, `attemptDelivery` dispatches the outbound request to
`forward_url` with the event's method and body — even when `forward_url`'s
host:port equals the configured base URL's and its path has the hook-token
shape; no refusal with the claimed error message takes place. -/
theorem c2_no_self_forward_guard (ev : EventDoc) (ep : Endpoint)
    (outcome : HttpOutcome) (now : String) (dur : Nat)
    (hen : ep.forwarding_enabled = true) (hurl : ep.forward_url ≠ "")
    (hguard : specSelfForwardGuard ep.forward_url
      defaultConfig.HOOKFREIGHT_BASE_URL = true) :
    (attemptDelivery (some ev) (some ep) outcome now dur).1 =
      some ⟨ep.forward_url, ev.method, buildForwardHeaders ev.headers ep now,
        ev.body, ep.http_timeout.getD DEFAULT_HTTP_TIMEOUT_MS,
        ep.http_timeout.getD DEFAULT_HTTP_TIMEOUT_MS⟩ := by
  have hbeq : (ep.forward_url == "") = false := beq_eq_false_iff_ne.mpr hurl
  unfold attemptDelivery
  simp only [hen, hbeq, Bool.not_true, Bool.or_self, Bool.false_eq_true, if_false]
  cases outcome with
  | response code rhdrs rbody => rfl
  | err msg => rfl

/-- C2 witness: the amended no-guard behaviour at the self-forward URL. -/
theorem c2_no_self_forward_guard_witness :
    (⟨2, true, "http://localhost:3030/deadbeefdeadbeefdeadbeef", none, none⟩ :
      Endpoint).forwarding_enabled = true ∧
    (⟨2, true, "http://localhost:3030/deadbeefdeadbeefdeadbeef", none, none⟩ :
      Endpoint).forward_url ≠ "" ∧
    specSelfForwardGuard (⟨2, true, "http://localhost:3030/deadbeefdeadbeefdeadbeef",
      none, none⟩ : Endpoint).forward_url defaultConfig.HOOKFREIGHT_BASE_URL = true ∧
    (attemptDelivery (some ⟨1, 2, 0, "POST", [], [], 0⟩)
      (some ⟨2, true, "http://localhost:3030/deadbeefdeadbeefdeadbeef", none, none⟩)
      (.response 200 [] []) "ts" 0).1 =
      some ⟨(⟨2, true, "http://localhost:3030/deadbeefdeadbeefdeadbeef", none, none⟩ :
          Endpoint).forward_url,
        (⟨1, 2, 0, "POST", [], [], 0⟩ : EventDoc).method,
        buildForwardHeaders (⟨1, 2, 0, "POST", [], [], 0⟩ : EventDoc).headers
          ⟨2, true, "http://localhost:3030/deadbeefdeadbeefdeadbeef", none, none⟩ "ts",
        (⟨1, 2, 0, "POST", [], [], 0⟩ : EventDoc).body,
        (⟨2, true, "http://localhost:3030/deadbeefdeadbeefdeadbeef", none, none⟩ :
          Endpoint).http_timeout.getD DEFAULT_HTTP_TIMEOUT_MS,
        (⟨2, true, "http://localhost:3030/deadbeefdeadbeefdeadbeef", none, none⟩ :
          Endpoint).http_timeout.getD DEFAULT_HTTP_TIMEOUT_MS⟩ :=
  ⟨rfl, by decide, by decide,
    c2_no_self_forward_guard ⟨1, 2, 0, "POST", [], [], 0⟩
      ⟨2, true, "http://localhost:3030/deadbeefdeadbeefdeadbeef", none, none⟩
      (.response 200 [] []) "ts" 0 rfl (by decide) (by decide)⟩

/-! ## Lemmas about the retry chain -/

theorem runChainAux_length_le (eid : String) (ev? : Option EventDoc)
    (ep? : Option Endpoint) (outcomes : Nat → HttpOutcome) (now : String)
    (dur : Nat) (attempts : Nat) :
    ∀ fuel attemptsMade parent,
      (runChainAux eid ev? ep? outcomes now dur attempts attemptsMade parent fuel).1.length ≤
        fuel := by
  intro fuel
  induction fuel with
  | zero => intro m p; simp [runChainAux]
  | succ f ih =>
    intro m p
    unfold runChainAux
    by_cases hs : (attemptDelivery ev? ep? (outcomes m) now dur).2.success
    · simp only [hs, if_true]
      simp
    · simp only [hs, Bool.false_eq_true, if_false]
      by_cases hlt : m + 1 < attempts
      · simp only [hlt, if_true]
        have := ih (m + 1) (some (recIdFor eid m))
        simpa using Nat.succ_le_succ this
      · simp [hlt]

theorem runChainAux_delays (eid : String) (ev? : Option EventDoc)
    (ep? : Option Endpoint) (outcomes : Nat → HttpOutcome) (now : String)
    (dur : Nat) (attempts : Nat) :
    ∀ fuel attemptsMade parent i d,
      (runChainAux eid ev? ep? outcomes now dur attempts attemptsMade parent fuel).2.get? i =
          some d →
        d = 1000 * 2 ^ (attemptsMade + i) := by
  intro fuel
  induction fuel with
  | zero => intro m p i d h; simp [runChainAux] at h
  | succ f ih =>
    intro m p i d h
    unfold runChainAux at h
    by_cases hs : (attemptDelivery ev? ep? (outcomes m) now dur).2.success
    · simp only [hs, if_true] at h
      simp at h
    · simp only [hs, Bool.false_eq_true, if_false] at h
      by_cases hlt : m + 1 < attempts
      · simp only [hlt, if_true] at h
        cases i with
        | zero =>
          simp at h
          simpa using h.symm
        | succ j =>
          simp only [List.get?_cons_succ] at h
          have := ih (m + 1) (some (recIdFor eid m)) j d h
          rw [this]
          ring_nf
      · simp [hlt] at h

theorem runChainAux_eventId (eid : String) (ev? : Option EventDoc)
    (ep? : Option Endpoint) (outcomes : Nat → HttpOutcome) (now : String)
    (dur : Nat) (attempts : Nat) :
    ∀ fuel attemptsMade parent r,
      r ∈ (runChainAux eid ev? ep? outcomes now dur attempts attemptsMade parent fuel).1 →
        r.eventId = eid := by
  intro fuel
  induction fuel with
  | zero => intro m p r h; simp [runChainAux] at h
  | succ f ih =>
    intro m p r h
    unfold runChainAux at h
    by_cases hs : (attemptDelivery ev? ep? (outcomes m) now dur).2.success
    · simp only [hs, if_true] at h
      simp at h
      rw [h]
    · simp only [hs, Bool.false_eq_true, if_false] at h
      by_cases hlt : m + 1 < attempts
      · simp only [hlt, if_true] at h
        rcases List.mem_cons.mp h with h1 | h2
        · rw [h1]
        · exact ih (m + 1) (some (recIdFor eid m)) r h2
      · simp [hlt] at h
        rw [h]

theorem attemptDelivery_4xx_failed (ev : EventDoc) (ep : Endpoint)
    (c : Nat) (rh : List (String × String)) (rb : List Nat) (now : String)
    (dur : Nat) (hen : ep.forwarding_enabled = true) (hurl : ep.forward_url ≠ "")
    (h4 : 400 ≤ c) :
    (attemptDelivery (some ev) (some ep) (.response c rh rb) now dur).2.success = false ∧
    (attemptDelivery (some ev) (some ep) (.response c rh rb) now dur).2.status = .failed := by
  have hbeq : (ep.forward_url == "") = false := beq_eq_false_iff_ne.mpr hurl
  have hlt : (c < 300) = False := by
    simp only [eq_iff_iff, iff_false]
    omega
  unfold attemptDelivery
  simp only [hen, hbeq, Bool.not_true, Bool.or_self, Bool.false_eq_true, if_false]
  simp [hlt]

theorem runChainAux_allFail (eid : String) (ev : EventDoc) (ep : Endpoint)
    (outcomes : Nat → HttpOutcome) (now : String) (dur : Nat) (attempts : Nat)
    (hen : ep.forwarding_enabled = true) (hurl : ep.forward_url ≠ "")
    (h4xx : ∀ n, ∃ c rh rb, outcomes n = .response c rh rb ∧ 400 ≤ c ∧ c < 500) :
    ∀ fuel attemptsMade parent, attemptsMade + fuel = attempts → 1 ≤ fuel →
      (runChainAux eid (some ev) (some ep) outcomes now dur attempts attemptsMade
          parent fuel).1.length = fuel ∧
      ∀ r ∈ (runChainAux eid (some ev) (some ep) outcomes now dur attempts attemptsMade
          parent fuel).1, r.status = .failed := by
  intro fuel
  induction fuel with
  | zero => intro m p hsum hf; omega
  | succ f ih =>
    intro m p hsum _
    obtain ⟨c, rh, rb, hoc, hc4, _⟩ := h4xx m
    have hres := attemptDelivery_4xx_failed ev ep c rh rb now dur hen hurl hc4
    unfold runChainAux
    rw [hoc]
    simp only [hres.1, Bool.false_eq_true, if_false]
    by_cases hlt : m + 1 < attempts
    · have hf1 : 1 ≤ f := by omega
      have hih := ih (m + 1) (some (recIdFor eid m)) (by omega) hf1
      simp only [hlt, if_true]
      constructor
      · simp [hih.1]
      · intro r hr
        rcases List.mem_cons.mp hr with h1 | h2
        · rw [h1]
          exact hres.2
        · exact hih.2 r h2
    · have hf0 : f = 0 := by omega
      simp only [hlt, if_false]
      subst hf0
      constructor
      · rfl
      · intro r hr
        simp at hr
        rw [hr]
        exact hres.2

/-- C1 amended: a 4xx response is recorded as a `failed` delivery but does
not terminate the retry chain: the worker throws on every non-2xx result,
so the scheduler keeps retrying; with a destination that answers 4xx on
every attempt, exactly `MAX_RETRIES` deliveries are recorded, all
`failed`. -/
theorem c1_4xx_is_retried (eid : String) (ev : EventDoc) (ep : Endpoint)
    (outcomes : Nat → HttpOutcome) (now : String) (dur : Nat) (attempts : Nat)
    (hA : 1 ≤ attempts)
    (hen : ep.forwarding_enabled = true) (hurl : ep.forward_url ≠ "")
    (h4xx : ∀ n, ∃ c rh rb, outcomes n = .response c rh rb ∧ 400 ≤ c ∧ c < 500) :
    (runChain eid (some ev) (some ep) outcomes now dur attempts).1.length = attempts ∧
    ∀ r ∈ (runChain eid (some ev) (some ep) outcomes now dur attempts).1,
      r.status = .failed :=
  runChainAux_allFail eid ev ep outcomes now dur attempts hen hurl h4xx attempts 0 none
    (by omega) hA

/-- C1 counterexample: with `MAX_RETRIES = 2 > 1` and a destination that
answers 400 on every attempt, the job records two deliveries, not exactly
one — the 4xx does not stop the retry chain. -/
theorem c1_counterexample :
    (runChain "ev1" (some ⟨1, 2, 0, "POST", [], [], 0⟩)
      (some ⟨2, true, "http://dest.example/h", none, none⟩)
      (fun _ => .response 400 [] []) "ts" 0 2).1.length = 2 ∧
    ¬ (runChain "ev1" (some ⟨1, 2, 0, "POST", [], [], 0⟩)
      (some ⟨2, true, "http://dest.example/h", none, none⟩)
      (fun _ => .response 400 [] []) "ts" 0 2).1.length = 1 := by
  constructor
  · decide
  · decide

/-- C1 witness: the amended behaviour at `MAX_RETRIES = 2` with a
constant-400 destination: two deliveries, both `failed`. -/
theorem c1_4xx_is_retried_witness :
    (1 ≤ 2 ∧
      (⟨2, true, "http://dest.example/h", none, none⟩ : Endpoint).forwarding_enabled = true ∧
      (⟨2, true, "http://dest.example/h", none, none⟩ : Endpoint).forward_url ≠ "") ∧
    (runChain "ev1" (some ⟨1, 2, 0, "POST", [], [], 0⟩)
      (some ⟨2, true, "http://dest.example/h", none, none⟩)
      (fun _ => .response 400 [] []) "ts" 0 2).1.length = 2 ∧
    ∀ r ∈ (runChain "ev1" (some ⟨1, 2, 0, "POST", [], [], 0⟩)
      (some ⟨2, true, "http://dest.example/h", none, none⟩)
      (fun _ => .response 400 [] []) "ts" 0 2).1, r.status = .failed :=
  ⟨⟨by omega, rfl, by decide⟩,
    c1_4xx_is_retried "ev1" ⟨1, 2, 0, "POST", [], [], 0⟩
      ⟨2, true, "http://dest.example/h", none, none⟩
      (fun _ => .response 400 [] []) "ts" 0 2 (by omega) rfl (by decide)
      (fun _ => ⟨400, [], [], rfl, by omega, by omega⟩)⟩

/-- C4: automatic retries are bounded by the queue's `attempts` option —
`MAX_RETRIES`, default 5 — so a job records at most `MAX_RETRIES`
deliveries and after that no further automatic attempt is scheduled; and
the backoff delay scheduled after the n-th retryable failure (0-indexed
`i`, so `n = i + 1`) is `1000 * 2 ^ i = 1000 * 2 ^ (n - 1)` milliseconds
— exponential backoff with base 1000 ms. -/
theorem c4_bounded_retries_exponential_backoff (eid : String)
    (ev? : Option EventDoc) (ep? : Option Endpoint)
    (outcomes : Nat → HttpOutcome) (now : String) (dur : Nat) (attempts : Nat) :
    (runChain eid ev? ep? outcomes now dur attempts).1.length ≤ attempts ∧
    (∀ i d, (runChain eid ev? ep? outcomes now dur attempts).2.get? i = some d →
      d = 1000 * 2 ^ i) ∧
    defaultConfig.HOOKFREIGHT_QUEUE_MAX_RETRIES = 5 := by
  refine ⟨runChainAux_length_le eid ev? ep? outcomes now dur attempts attempts 0 none,
    ?_, rfl⟩
  intro i d h
  have := runChainAux_delays eid ev? ep? outcomes now dur attempts attempts 0 none i d h
  simpa using this

/-- C4 witness: with the default `MAX_RETRIES = 5` and a constant-500
destination, at most 5 deliveries are recorded and the second scheduled
delay is `2000 = 1000 * 2 ^ 1` ms. -/
theorem c4_bounded_retries_exponential_backoff_witness :
    (runChain "ev1" (some ⟨1, 2, 0, "POST", [], [], 0⟩)
      (some ⟨2, true, "http://dest.example/h", none, none⟩)
      (fun _ => .response 500 [] []) "ts" 0 5).1.length ≤ 5 ∧
    (runChain "ev1" (some ⟨1, 2, 0, "POST", [], [], 0⟩)
      (some ⟨2, true, "http://dest.example/h", none, none⟩)
      (fun _ => .response 500 [] []) "ts" 0 5).2.get? 1 = some 2000 ∧
    (2000 : Nat) = 1000 * 2 ^ 1 :=
  ⟨(c4_bounded_retries_exponential_backoff "ev1" (some ⟨1, 2, 0, "POST", [], [], 0⟩)
      (some ⟨2, true, "http://dest.example/h", none, none⟩)
      (fun _ => .response 500 [] []) "ts" 0 5).1,
    by decide,
    (c4_bounded_retries_exponential_backoff "ev1" (some ⟨1, 2, 0, "POST", [], [], 0⟩)
      (some ⟨2, true, "http://dest.example/h", none, none⟩)
      (fun _ => .response 500 [] []) "ts" 0 5).2.1 1 2000 (by decide)⟩

theorem runQueue_eventIds (q : QueueState) (evOf : String → Option EventDoc)
    (epOf : String → Option Endpoint) (outcomesOf : String → Nat → HttpOutcome)
    (now : String) (dur : Nat) (attempts : Nat) :
    ∀ r ∈ runQueue q evOf epOf outcomesOf now dur attempts,
      ∃ p ∈ q, r.eventId = p.2.eventId := by
  intro r hr
  unfold runQueue at hr
  obtain ⟨l, hl, hrl⟩ := List.mem_flatten.mp hr
  obtain ⟨p, hp, hpl⟩ := List.mem_map.mp hl
  refine ⟨p, hp, ?_⟩
  rw [← hpl] at hrl
  exact runChainAux_eventId p.2.eventId (evOf p.2.eventId) (epOf p.2.endpointId)
    (outcomesOf p.1) now dur attempts attempts 0 none r hrl

theorem handleEvent_skips (ep? : Option Endpoint) (eventId endpointId : String)
    (q : QueueState)
    (hmiss : ep? = none ∨ ∃ ep2, ep? = some ep2 ∧
      (ep2.forwarding_enabled = false ∨ ep2.forward_url = "")) :
    handleEvent ep? eventId endpointId q = q := by
  unfold handleEvent
  rcases hmiss with h | ⟨ep2, heq, hcase⟩
  · rw [h]
  · rw [heq]
    rcases hcase with h1 | h2
    · simp [h1]
    · simp [h2]

/-- C10: when the endpoint looked up at enqueue time is missing, has
forwarding disabled, or has an empty `forward_url`, `handleEvent` returns
without adding a job, so the queue is unchanged and — since deliveries are
only written by processing queued jobs — no delivery is ever recorded for
the captured event; the ingest request is still answered
`200 {"message":"event_created","data":null}`. -/
theorem c10_no_forwarding_no_delivery (req : IngestReq) (ep : Endpoint)
    (epById? : Option Endpoint) (now newId : Nat) (store : List EventDoc)
    (q : QueueState)
    (hm : jsToUpper req.method ∈ ALLOWED_METHODS)
    (hmiss : epById? = none ∨ ∃ ep2, epById? = some ep2 ∧
      (ep2.forwarding_enabled = false ∨ ep2.forward_url = "")) :
    (createEvent req (some ep) epById? now newId store q).2.2 = q ∧
    createEventResponse (createEvent req (some ep) epById? now newId store q).1 =
      ⟨200, "event_created", true⟩ ∧
    ∀ evOf epOf outcomesOf nowS dur attempts,
      (∀ p ∈ q, p.2.eventId ≠ toString newId) →
      ∀ r ∈ runQueue (createEvent req (some ep) epById? now newId store q).2.2
          evOf epOf outcomesOf nowS dur attempts,
        r.eventId ≠ toString newId := by
  have hq : handleEvent epById? (toString newId) (toString ep.internalId) q = q :=
    handleEvent_skips epById? _ _ q hmiss
  have hqueue : (createEvent req (some ep) epById? now newId store q).2.2 = q := by
    simp [createEvent, hm, hq]
  refine ⟨hqueue, ?_, ?_⟩
  · simp [createEvent, createEventResponse, hm]
  · intro evOf epOf outcomesOf nowS dur attempts hfresh r hr
    rw [hqueue] at hr
    obtain ⟨p, hp, hid⟩ := runQueue_eventIds q evOf epOf outcomesOf nowS dur attempts r hr
    rw [hid]
    exact hfresh p hp

/-- C10 witness: a POST capture whose endpoint has forwarding disabled at
enqueue time adds no job to the empty queue, yields the 200 envelope, and
no delivery for the new event can arise from draining the queue. -/
theorem c10_no_forwarding_no_delivery_witness :
    jsToUpper "POST" ∈ ALLOWED_METHODS ∧
    ((some ⟨7, false, "http://dest.example/h", none, none⟩ : Option Endpoint) = none ∨
      ∃ ep2, (some ⟨7, false, "http://dest.example/h", none, none⟩ : Option Endpoint) =
          some ep2 ∧
        (ep2.forwarding_enabled = false ∨ ep2.forward_url = "")) ∧
    (createEvent ⟨"POST", "a1b2c3d4e5f6a1b2c3d4e5f6", some [1], .buf [1], []⟩
      (some ⟨7, true, "http://dest.example/h", none, none⟩)
      (some ⟨7, false, "http://dest.example/h", none, none⟩) 11 42 [] []).2.2 = [] ∧
    createEventResponse (createEvent ⟨"POST", "a1b2c3d4e5f6a1b2c3d4e5f6", some [1], .buf [1], []⟩
      (some ⟨7, true, "http://dest.example/h", none, none⟩)
      (some ⟨7, false, "http://dest.example/h", none, none⟩) 11 42 [] []).1 =
      ⟨200, "event_created", true⟩ := by
  have h := c10_no_forwarding_no_delivery
    ⟨"POST", "a1b2c3d4e5f6a1b2c3d4e5f6", some [1], .buf [1], []⟩
    ⟨7, true, "http://dest.example/h", none, none⟩
    (some ⟨7, false, "http://dest.example/h", none, none⟩) 11 42 [] []
    (by decide)
    (Or.inr ⟨⟨7, false, "http://dest.example/h", none, none⟩, rfl, Or.inl rfl⟩)
  exact ⟨by decide, Or.inr ⟨⟨7, false, "http://dest.example/h", none, none⟩, rfl, Or.inl rfl⟩,
    h.1, h.2.1⟩

/-- C7: listing events by endpoint returns events sorted by `recieved_at`
descending with ties broken by descending internal id (Mongo `_id`s are
pairwise distinct), `limit` clamped to `[1, 50]`, `offset` clamped to
`≥ 0`, and `has_next` — computed by fetching `limit + 1` documents and
checking whether more than `limit` were found — holds exactly when more
than `offset + limit` events of the endpoint exist. -/
theorem c7_list_events_sorted_clamped (events : List EventDoc) (ep : Endpoint)
    (limit? offset? : Option Int)
    (hids : events.Pairwise (fun a b => a.internalId ≠ b.internalId)) :
    (1 ≤ (listEventsByEndpointId events (some ep) limit? offset?).limit ∧
      (listEventsByEndpointId events (some ep) limit? offset?).limit ≤ 50 ∧
      0 ≤ (listEventsByEndpointId events (some ep) limit? offset?).offset) ∧
    (listEventsByEndpointId events (some ep) limit? offset?).events.Pairwise
      (fun a b => b.recieved_at < a.recieved_at ∨
        (b.recieved_at = a.recieved_at ∧ b.internalId < a.internalId)) ∧
    ((listEventsByEndpointId events (some ep) limit? offset?).has_next = true ↔
      (listEventsByEndpointId events (some ep) limit? offset?).offset.toNat +
        (listEventsByEndpointId events (some ep) limit? offset?).limit.toNat <
        (events.filter (fun e => e.endpoint_id == ep.internalId)).length) := by
  have hl1 : (1 : Int) ≤ max 1 (min EVENTS_MAX_LIST_LIMIT (limit?.getD 10)) :=
    le_max_left 1 _
  have hl50 : max 1 (min EVENTS_MAX_LIST_LIMIT (limit?.getD 10)) ≤ 50 := by
    apply max_le
    · norm_num
    · exact le_trans (min_le_left _ _) (by norm_num [EVENTS_MAX_LIST_LIMIT])
  have ho0 : (0 : Int) ≤ max 0 (offset?.getD 0) := le_max_left 0 _
  set filtered := events.filter (fun e => e.endpoint_id == ep.internalId) with hfiltered
  set sorted := List.insertionSort evBefore filtered with hsorteddef
  have hsorted : List.Sorted evBefore sorted := List.sorted_insertionSort evBefore filtered
  have hperm : List.Perm sorted filtered := List.perm_insertionSort evBefore filtered
  have hfids : filtered.Pairwise (fun a b => a.internalId ≠ b.internalId) :=
    hids.sublist (List.filter_sublist events)
  have hsids : sorted.Pairwise (fun a b => a.internalId ≠ b.internalId) :=
    hfids.perm hperm.symm (fun hab => hab.symm)
  have hstrict : sorted.Pairwise
      (fun a b => b.recieved_at < a.recieved_at ∨
        (b.recieved_at = a.recieved_at ∧ b.internalId < a.internalId)) := by
    refine (hsorted.and hsids).imp ?_
    intro a b hab
    obtain ⟨hbefore, hne⟩ := hab
    unfold evBefore at hbefore
    omega
  unfold listEventsByEndpointId
  simp only
  refine ⟨⟨hl1, hl50, ho0⟩, ?_, ?_⟩
  · refine hstrict.sublist ?_
    exact (List.take_sublist _ _).trans ((List.take_sublist _ _).trans (List.drop_sublist _ _))
  · have hlen : ((sorted.drop (max 0 (offset?.getD 0)).toNat).take
        ((max 1 (min EVENTS_MAX_LIST_LIMIT (limit?.getD 10))).toNat + 1)).length =
        min ((max 1 (min EVENTS_MAX_LIST_LIMIT (limit?.getD 10))).toNat + 1)
          (sorted.length - (max 0 (offset?.getD 0)).toNat) := by
      rw [List.length_take, List.length_drop]
    have hslen : sorted.length = filtered.length := hperm.length_eq
    rw [decide_eq_true_iff, hlen, hslen]
    omega

/-- C7 witness: the listing property at a concrete three-event store. -/
theorem c7_list_events_sorted_clamped_witness :
    ([⟨1, 7, 10, "POST", [], [], 0⟩, ⟨2, 7, 10, "POST", [], [], 0⟩,
        ⟨3, 7, 12, "POST", [], [], 0⟩] : List EventDoc).Pairwise
      (fun a b => a.internalId ≠ b.internalId) ∧
    ((1 ≤ (listEventsByEndpointId [⟨1, 7, 10, "POST", [], [], 0⟩, ⟨2, 7, 10, "POST", [], [], 0⟩,
          ⟨3, 7, 12, "POST", [], [], 0⟩] (some ⟨7, true, "u", none, none⟩) none none).limit ∧
      (listEventsByEndpointId [⟨1, 7, 10, "POST", [], [], 0⟩, ⟨2, 7, 10, "POST", [], [], 0⟩,
          ⟨3, 7, 12, "POST", [], [], 0⟩] (some ⟨7, true, "u", none, none⟩) none none).limit ≤ 50 ∧
      0 ≤ (listEventsByEndpointId [⟨1, 7, 10, "POST", [], [], 0⟩, ⟨2, 7, 10, "POST", [], [], 0⟩,
          ⟨3, 7, 12, "POST", [], [], 0⟩] (some ⟨7, true, "u", none, none⟩) none none).offset) ∧
    (listEventsByEndpointId [⟨1, 7, 10, "POST", [], [], 0⟩, ⟨2, 7, 10, "POST", [], [], 0⟩,
        ⟨3, 7, 12, "POST", [], [], 0⟩] (some ⟨7, true, "u", none, none⟩) none none).events.Pairwise
      (fun a b => b.recieved_at < a.recieved_at ∨
        (b.recieved_at = a.recieved_at ∧ b.internalId < a.internalId)) ∧
    ((listEventsByEndpointId [⟨1, 7, 10, "POST", [], [], 0⟩, ⟨2, 7, 10, "POST", [], [], 0⟩,
        ⟨3, 7, 12, "POST", [], [], 0⟩] (some ⟨7, true, "u", none, none⟩) none none).has_next = true ↔
      (listEventsByEndpointId [⟨1, 7, 10, "POST", [], [], 0⟩, ⟨2, 7, 10, "POST", [], [], 0⟩,
          ⟨3, 7, 12, "POST", [], [], 0⟩] (some ⟨7, true, "u", none, none⟩) none none).offset.toNat +
        (listEventsByEndpointId [⟨1, 7, 10, "POST", [], [], 0⟩, ⟨2, 7, 10, "POST", [], [], 0⟩,
          ⟨3, 7, 12, "POST", [], [], 0⟩] (some ⟨7, true, "u", none, none⟩) none none).limit.toNat <
        (([⟨1, 7, 10, "POST", [], [], 0⟩, ⟨2, 7, 10, "POST", [], [], 0⟩,
          ⟨3, 7, 12, "POST", [], [], 0⟩] : List EventDoc).filter
            (fun e => e.endpoint_id == (⟨7, true, "u", none, none⟩ : Endpoint).internalId)).length)) :=
  ⟨by decide,
    c7_list_events_sorted_clamped
      [⟨1, 7, 10, "POST", [], [], 0⟩, ⟨2, 7, 10, "POST", [], [], 0⟩, ⟨3, 7, 12, "POST", [], [], 0⟩]
      ⟨7, true, "u", none, none⟩ none none (by decide)⟩

/-- C8 amended: `getDeliveriesByEventId` returns the event's delivery
attempts ordered by `createdAt` descending, with `limit` clamped to
`[1, 1000]` and defaulting to 20; each returned attempt comes from a
stored delivery of that event with its `response_body` projected by
`parseBufferBody`, whose rule is: decode the bytes as UTF-8 with
replacement, return the parsed value when the decoded string parses as
JSON, otherwise the decoded string, and null when the body is empty. -/
theorem c8_deliveries_listing_projection (docs : List DeliveryDoc)
    (eventId : String) (limit? offset? : Option Int) :
    (1 ≤ (getDeliveriesByEventId docs eventId limit? offset?).limit ∧
      (getDeliveriesByEventId docs eventId limit? offset?).limit ≤ 1000) ∧
    (limit? = none → (getDeliveriesByEventId docs eventId limit? offset?).limit = 20) ∧
    (getDeliveriesByEventId docs eventId limit? offset?).deliveries.Pairwise
      (fun a b => b.createdAt ≤ a.createdAt) ∧
    (∀ v, parseBufferBody v = amendedBodyProjection v) ∧
    (∀ d ∈ (getDeliveriesByEventId docs eventId limit? offset?).deliveries,
      ∃ doc ∈ docs, doc.event_id = eventId ∧
        d.response_body = parseBufferBody doc.response_body ∧
        d.createdAt = doc.createdAt) := by
  have hl1 : (1 : Int) ≤ max 1 (min DELIVERIES_MAX_LIST_LIMIT (limit?.getD 20)) :=
    le_max_left 1 _
  have hl1000 : max 1 (min DELIVERIES_MAX_LIST_LIMIT (limit?.getD 20)) ≤ 1000 := by
    apply max_le
    · norm_num
    · exact le_trans (min_le_left _ _) (by norm_num [DELIVERIES_MAX_LIST_LIMIT])
  set filtered := docs.filter (fun d => d.event_id == eventId) with hfiltered
  set sorted := List.insertionSort dBefore filtered with hsorteddef
  have hsorted : List.Sorted dBefore sorted := List.sorted_insertionSort dBefore filtered
  have hperm : List.Perm sorted filtered := List.perm_insertionSort dBefore filtered
  unfold getDeliveriesByEventId
  simp only
  refine ⟨⟨hl1, hl1000⟩, ?_, ?_, fun v => rfl, ?_⟩
  · intro h
    subst h
    decide
  · rw [List.pairwise_map]
    refine List.Pairwise.imp ?_ (hsorted.sublist ?_)
    · intro a b hab
      exact hab
    · exact (List.take_sublist _ _).trans
        ((List.take_sublist _ _).trans (List.drop_sublist _ _))
  · intro d hd
    obtain ⟨w, hw, hwd⟩ := List.mem_map.mp hd
    have hwsorted : w ∈ sorted := by
      have hsub : (((sorted.drop (max 0 (offset?.getD 0)).toNat).take
          ((max 1 (min DELIVERIES_MAX_LIST_LIMIT (limit?.getD 20))).toNat + 1)).take
          (max 1 (min DELIVERIES_MAX_LIST_LIMIT (limit?.getD 20))).toNat).Sublist sorted :=
        (List.take_sublist _ _).trans
          ((List.take_sublist _ _).trans (List.drop_sublist _ _))
      exact hsub.mem hw
    have hwfiltered : w ∈ filtered := hperm.mem_iff.mp hwsorted
    have hwdocs : w ∈ docs := List.mem_of_mem_filter hwfiltered
    have hweq : w.event_id = eventId := by
      have := List.of_mem_filter hwfiltered
      exact eq_of_beq this
    exact ⟨w, hwdocs, hweq, by rw [← hwd], by rw [← hwd]⟩

/-- C8 counterexample: the byte sequence `0x22 0xFF 0x22` is not valid
UTF-8, yet its replacement-decoded string `"�"` parses as JSON, so the
projection returns a parsed JSON value — while the claim's rule ("parsed
JSON only when the bytes are valid UTF-8, otherwise the UTF-8 string")
would return the decoded string itself. -/
theorem c8_counterexample :
    validUtf8 [34, 255, 34] = false ∧
    parseBufferBody (some [34, 255, 34]) = .jsonB (.jstr "�") ∧
    claimedBodyProjection (some [34, 255, 34]) = .strB "\"�\"" ∧
    parseBufferBody (some [34, 255, 34]) ≠ claimedBodyProjection (some [34, 255, 34]) := by
  have e1 : parseBufferBody (some [34, 255, 34]) = .jsonB (.jstr "�") := rfl
  have e2 : claimedBodyProjection (some [34, 255, 34]) = .strB "\"�\"" := rfl
  refine ⟨rfl, e1, e2, ?_⟩
  rw [e1, e2]
  intro h
  exact ProjBody.noConfusion h

/-- C8 witness: the listing/projection property at a concrete two-delivery
store (the default-limit hypothesis discharged with absent parameters). -/
theorem c8_deliveries_listing_projection_witness :
    (1 ≤ (getDeliveriesByEventId [⟨1, "e", .failed, none, some [34, 255, 34], 5⟩,
        ⟨2, "e", .delivered, some 200, none, 9⟩] "e" none none).limit ∧
      (getDeliveriesByEventId [⟨1, "e", .failed, none, some [34, 255, 34], 5⟩,
        ⟨2, "e", .delivered, some 200, none, 9⟩] "e" none none).limit ≤ 1000) ∧
    ((none : Option Int) = none →
      (getDeliveriesByEventId [⟨1, "e", .failed, none, some [34, 255, 34], 5⟩,
        ⟨2, "e", .delivered, some 200, none, 9⟩] "e" none none).limit = 20) ∧
    (getDeliveriesByEventId [⟨1, "e", .failed, none, some [34, 255, 34], 5⟩,
        ⟨2, "e", .delivered, some 200, none, 9⟩] "e" none none).deliveries.Pairwise
      (fun a b => b.createdAt ≤ a.createdAt) ∧
    (∀ v, parseBufferBody v = amendedBodyProjection v) ∧
    (∀ d ∈ (getDeliveriesByEventId [⟨1, "e", .failed, none, some [34, 255, 34], 5⟩,
        ⟨2, "e", .delivered, some 200, none, 9⟩] "e" none none).deliveries,
      ∃ doc ∈ ([⟨1, "e", .failed, none, some [34, 255, 34], 5⟩,
        ⟨2, "e", .delivered, some 200, none, 9⟩] : List DeliveryDoc), doc.event_id = "e" ∧
        d.response_body = parseBufferBody doc.response_body ∧
        d.createdAt = doc.createdAt) :=
  c8_deliveries_listing_projection
    [⟨1, "e", .failed, none, some [34, 255, 34], 5⟩, ⟨2, "e", .delivered, some 200, none, 9⟩]
    "e" none none
